import Mathlib

/-!
Verification of the rcoder transport core against its design description.

The Python sources are shallowly embedded: byte strings become lists of
natural numbers, timestamps and delays become rationals (exact arithmetic in
place of IEEE floats), dictionaries become structures or association lists,
and exceptions become `Except` values.  Each definition is annotated with the
source function and lines it embeds.
-/

namespace Rcoder

/-! ### Byte strings and the compression layer (`core_optimized.py`) -/

/-- Byte strings (Python `bytes`) as lists of byte values. -/
abbrev Bytes := List Nat

/-- The fixed compression marker written by `_call` when a compressed request
is smaller than the raw payload and checked on the response path:
the 11 bytes of the ASCII string COMPRESSED followed by a colon
(`core_optimized.py` lines 301 and 318). -/
def compressedMarker : Bytes := "COMPRESSED:".toList.map Char.toNat

/-- Model of the gzip stream interface used by `gzip.compress`: per RFC 1952
every gzip member begins with the magic bytes 0x1f 0x8b, and the compressed
stream decodes back to the original document.  The payload after the magic is
kept abstract as the document itself; the claims depend only on the header
shape and on decompression inverting compression. -/
def gzipMagic : Bytes := [31, 139]

/-- Model of `gzip.compress`: a magic-headed encoding of the document. -/
def gzipCompress (d : Bytes) : Bytes := gzipMagic ++ d

/-- Model of `gzip.decompress`: succeeds exactly on streams carrying the gzip
magic header and then inverts `gzipCompress`; on anything else it raises,
modelled as `none`. -/
def gzipDecompressQ (x : Bytes) : Option Bytes :=
  if x.take 2 = gzipMagic then some (x.drop 2) else none

/-- Embedding of `RcoderCore._decompress_data` (`core_optimized.py` lines
241-249): when compression is disabled return the data unchanged; otherwise
try `gzip.decompress` and on any exception return the data unchanged. -/
def decompress_data (enableCompression : Bool) (data : Bytes) : Bytes :=
  if !enableCompression then data
  else
    match gzipDecompressQ data with
    | some y => y
    | none => data

/-- Embedding of the response decompression step of `RcoderCore._call`
(`core_optimized.py` lines 317-319): if the accumulated response starts with
the marker bytes, the code passes `response_data[10:]` - the bytes from index
10 on - to `_decompress_data`; otherwise the response is used as-is. -/
def processResponseData (enableCompression : Bool) (responseData : Bytes) : Bytes :=
  if compressedMarker.isPrefixOf responseData then
    decompress_data enableCompression (responseData.drop 10)
  else responseData

/-- A sample serialized JSON document, the bytes of the text
\x7b"ok":1\x7d. -/
def sampleDoc : Bytes := "\x7b\"ok\":1\x7d".toList.map Char.toNat

/-! ### Network scenario classification (`auto_optimizer.py`) -/

/-- Boolean encoding of the comparison sqrt v > c over the rationals, for a
nonnegative radicand v: it holds exactly when c is negative or v exceeds the
square of c.  `_detect_network_scenario` compares `std_dev = variance ** 0.5`
against multiples of the mean; variance is a mean of squares, hence
nonnegative, so this encoding is exact. -/
def sqrtGTQ (v c : ℚ) : Bool := if c < 0 then true else decide (v > c ^ 2)

/-- One entry of the `get_bandwidth_trend()` list: `some b` when the entry
dict has a numeric value `b` under the key bandwidth, `none` otherwise. -/
abbrev TrendEntry := Option ℚ

/-- Embedding of the instability check of
`AutoOptimizer._detect_network_scenario` (`auto_optimizer.py` lines 276-293):
when the trend holds at least 5 entries, collect the bandwidth values of the
last 5; when at least 3 values were found, compute their mean and population
variance, and compare the standard deviation first against `mean * 0.3`
(selecting unstable_network) and only otherwise against `mean * 0.5`
(selecting very_unstable_network); keep the incoming scenario when neither
branch fires or too few samples exist. -/
def detectUnstablePart (scenario : String) (trend : List TrendEntry) : String :=
  if 5 ≤ trend.length then
    let bandwidths := (trend.drop (trend.length - 5)).filterMap id
    if 3 ≤ bandwidths.length then
      let n : ℚ := bandwidths.length
      let mean := bandwidths.sum / n
      let variance := (bandwidths.map (fun b => (b - mean) ^ 2)).sum / n
      if sqrtGTQ variance (mean * (3 / 10)) then "unstable_network"
      else if sqrtGTQ variance (mean * (1 / 2)) then "very_unstable_network"
      else scenario
    else scenario
  else scenario

/-! ### String helpers mirroring Python string operations -/

/-- Occurrence of `needle` as a contiguous sublist of `hay`: some suffix of
`hay` starts with `needle`.  Mirrors the Python substring test
`needle in hay`. -/
def charsContain (needle hay : List Char) : Bool :=
  hay.tails.any (fun t => needle.isPrefixOf t)

/-- Python substring test `needle in hay` on strings. -/
def strContains (hay needle : String) : Bool :=
  charsContain needle.toList hay.toList

/-- Python `str.lower()`, character by character. -/
def strLower (s : String) : String := String.mk (s.toList.map Char.toLower)

/-- The authentication-error classifier of `RcoderCore._call`
(`core_optimized.py` line 339): the lowercased error message contains
auth, password, or login. -/
def isAuthErrorMsg (msg : String) : Bool :=
  strContains (strLower msg) "auth" || strContains (strLower msg) "password" ||
    strContains (strLower msg) "login"

/-! ### The RPC call loop `RcoderCore._call` (`core_optimized.py` 251-391)

One call is simulated against a script of per-attempt events describing what
the network does on each iteration of the retry loop.  Timestamps, socket
identities and the JSON wire encoding are abstracted: an event records the
parse-level outcome of the attempt. -/

/-- Outcome of the inner JSON document `result.content[0].text` of a
successful response, as consumed by `RcoderCore.execute` (lines 528-530). -/
structure InnerData where
  stdout : String
  stderr : String
  error : String
deriving DecidableEq, Repr

/-- A response successfully parsed by `json.loads` and containing no
error field, as seen by `RcoderCore.execute`. -/
inductive ParsedResp where
  /-- The response has a result key; `inner` is the parse of
  `result.content[0].text` (`none` when that inner parse raises). -/
  | withResult (inner : Option InnerData)
  /-- The response has no result key; `rendered` is Python `str(result)`. -/
  | withoutResult (rendered : String)
deriving DecidableEq, Repr

/-- What the network does on one iteration of the `_call` retry loop. -/
inductive AttemptEvent where
  /-- `_get_connection` raises a socket error carrying message `m`
  (no connection is obtained on this attempt). -/
  | connFail (m : String)
  /-- A connection was obtained, then send/recv raised a socket error
  carrying message `m`. -/
  | sockFail (m : String)
  /-- A connection was obtained and every read returned no data. -/
  | emptyResponse
  /-- A connection was obtained but the payload is not decodable JSON. -/
  | badJson
  /-- The response parsed and carries an error object whose extracted
  message is `m` (line 338). -/
  | errorResponse (m : String)
  /-- The response parsed with no error object. -/
  | ok (resp : ParsedResp)
deriving DecidableEq, Repr

/-- Whether a connection was obtained during the attempt (only the
`_get_connection` failure leaves `conn` as `None`, lines 265-268). -/
def connObtained : AttemptEvent → Bool
  | .connFail _ => false
  | _ => true

/-- The Connection-refused test of the socket-error handler
(`core_optimized.py` line 347). -/
def refusedMsg (m : String) : Bool :=
  strContains m "Connection refused" || strContains m "10061"

/-- The message raised for a refused connection (lines 348-351), which
depends on whether a password is configured. -/
def connFailedMsg (hasPassword : Bool) (m : String) : String :=
  if hasPassword then
    "连接失败: " ++ m ++ ". 可能的原因: 服务器未运行、端口错误或认证失败。"
  else
    "连接失败: " ++ m ++ ". 可能的原因: 服务器未运行或端口错误。"

/-- The message raised for an authentication-flavored error response
(line 340). -/
def authFailMsg (m : String) : String :=
  "认证失败: " ++ m ++ ". 请检查用户名和密码是否正确。"

/-- The message raised for any other error response (line 341). -/
def serverErrMsg (m : String) : String := "服务器错误: " ++ m

/-- The message of an error response as rendered by lines 337-341. -/
def renderErrorMsg (m : String) : String :=
  if isAuthErrorMsg m then authFailMsg m else serverErrMsg m

/-- Abstract rendering of the `json.JSONDecodeError` re-raised after the
retry budget is exhausted (lines 363-373). -/
def jsonDecodeErrorMsg : String := "JSONDecodeError: Expecting value"

/-- Static configuration of one `_call` invocation: arguments and the
`RcoderCore` fields the loop reads.  Defaults follow the constructor
(`_retry_delay = 0.5`, `_max_retry_delay = 5`). -/
structure CallConfig where
  retryOnFailure : Bool
  maxRetries : Nat
  expBackoff : Bool
  retryDelay : ℚ
  maxRetryDelay : ℚ
  hasPassword : Bool
  enablePool : Bool
  poolCap : Nat
deriving DecidableEq, Repr

/-- The delay update performed before each sleep (lines 324-329 and the
identical blocks at 355-360, 366-371, 380-386): with exponential backoff
`current_delay = min(current_delay * 2 ** retry_count, _max_retry_delay * 2)`
using the already-incremented retry count, otherwise
`current_delay = min(current_delay * 1.5, _max_retry_delay)`. -/
def nextDelay (cfg : CallConfig) (d : ℚ) (rc : Nat) : ℚ :=
  if cfg.expBackoff then min (d * 2 ^ rc) (cfg.maxRetryDelay * 2)
  else min (d * (3 / 2)) cfg.maxRetryDelay

/-- Mutable state threaded through the retry loop, together with the
observables the claims are about: the number of loop iterations entered,
the sequence of sleeps performed, and per attempt whether
`_return_connection` was invoked on the connection. -/
structure CallState where
  retryCount : Nat
  delay : ℚ
  pool : List Nat
  nextConn : Nat
  attempts : Nat
  sleeps : List ℚ
  released : List Bool
deriving DecidableEq, Repr

/-- Embedding of `RcoderCore._get_connection` (lines 136-168) at the level
of connection identity: take the oldest pooled connection when the pool is
enabled and nonempty, otherwise create a fresh one.  Pooled connections are
assumed unexpired and alive (the expiry sweep and the zero-byte liveness
probe do not bear on the claims). -/
def acquireConn (cfg : CallConfig) (st : CallState) : Nat × CallState :=
  if cfg.enablePool then
    match st.pool with
    | c :: rest => (c, { st with pool := rest })
    | [] => (st.nextConn, { st with nextConn := st.nextConn + 1 })
  else (st.nextConn, { st with nextConn := st.nextConn + 1 })

/-- Embedding of `RcoderCore._return_connection` (lines 208-225): put the
connection back when the pool is enabled and not full, else close it. -/
def returnConn (cfg : CallConfig) (c : Nat) (st : CallState) : CallState :=
  if cfg.enablePool ∧ st.pool.length < cfg.poolCap then
    { st with pool := st.pool ++ [c] }
  else st

/-- What one attempt does after the connection phase, per the handlers of
lines 321-388. -/
inductive AttemptOutcome where
  /-- An exception that propagates without consulting the retry budget. -/
  | raiseNow (msg : String)
  /-- A failure that retries while budget remains and otherwise raises
  `msg`. -/
  | retryable (msg : String)
  /-- A response with no error object is returned (line 343). -/
  | success (resp : ParsedResp)
deriving DecidableEq, Repr

/-- Classification of an attempt event by the `_call` handlers:
a refused connection raises immediately (lines 347-351); other socket
errors re-raise the original error once the budget is spent (lines
353-362); an empty response raises Empty response from server (lines
321-331); undecodable JSON re-raises the decode error (lines 363-373); an
error response raises the rendered message, which is never retried when it
contains the 认证失败 prefix attached to authentication-flavored errors
(lines 337-341 and 374-388). -/
def classifyEvent (hasPassword : Bool) : AttemptEvent → AttemptOutcome
  | .connFail m =>
      if refusedMsg m then .raiseNow (connFailedMsg hasPassword m) else .retryable m
  | .sockFail m =>
      if refusedMsg m then .raiseNow (connFailedMsg hasPassword m) else .retryable m
  | .emptyResponse => .retryable "Empty response from server"
  | .badJson => .retryable jsonDecodeErrorMsg
  | .errorResponse m =>
      let emsg := renderErrorMsg m
      if strContains emsg "认证失败" then .raiseNow emsg else .retryable emsg
  | .ok r => .success r

/-- An event is retryable when its classification consults the budget. -/
def retryableEvent (hasPassword : Bool) (e : AttemptEvent) : Bool :=
  match classifyEvent hasPassword e with
  | .retryable _ => true
  | _ => false

/-- State after the body of one attempt: the connection is acquired and -
whenever one was obtained - handed back by the `finally` block (lines
389-391) before the loop continues or the exception propagates; the attempt
counter advances and the release log records whether `_return_connection`
ran. -/
def attemptState (cfg : CallConfig) (e : AttemptEvent) (st : CallState) : CallState :=
  let st1 :=
    if connObtained e then
      let p := acquireConn cfg st
      returnConn cfg p.1 p.2
    else st
  { st1 with attempts := st.attempts + 1, released := st.released ++ [connObtained e] }

/-- State after the retry bookkeeping of a retried attempt: increment the
retry count, update the delay with the new count, and sleep for the updated
delay. -/
def sleepState (cfg : CallConfig) (st : CallState) : CallState :=
  let rc := st.retryCount + 1
  let d := nextDelay cfg st.delay rc
  { st with retryCount := rc, delay := d, sleeps := st.sleeps ++ [d] }

/-- The retry loop of `RcoderCore._call` (lines 264-391), driven by the
event script.  The loop runs while `retry_count <= max_retries`; every
retry requires `retry_count < max_retries` and increments it, so fuel
`max_retries + 1` always suffices and the fuel-exhaustion branch is
unreachable from `callSim`. -/
def callLoop (cfg : CallConfig) (events : Nat → AttemptEvent) :
    Nat → CallState → CallState × Except String ParsedResp
  | 0, st => (st, .error "")
  | fuel + 1, st =>
    let e := events st.attempts
    let st2 := attemptState cfg e st
    match classifyEvent cfg.hasPassword e with
    | .success r => (st2, .ok r)
    | .raiseNow m => (st2, .error m)
    | .retryable m =>
      if cfg.retryOnFailure ∧ st2.retryCount < cfg.maxRetries then
        callLoop cfg events fuel (sleepState cfg st2)
      else (st2, .error m)

/-- The loop state at entry of `_call`: `retry_count = 0`,
`current_delay = self._retry_delay`, an empty connection pool, no attempts
yet. -/
def initCallState (cfg : CallConfig) : CallState :=
  { retryCount := 0, delay := cfg.retryDelay, pool := [], nextConn := 0,
    attempts := 0, sleeps := [], released := [] }

/-- One full `_call(method, params, retry_on_failure, max_retries)`
invocation against an event script: the final loop state together with the
returned response or the raised exception message. -/
def callSim (cfg : CallConfig) (events : Nat → AttemptEvent) :
    CallState × Except String ParsedResp :=
  callLoop cfg events (cfg.maxRetries + 1) (initCallState cfg)

/-- The configuration of `_call` reached from `execute` with keyword
defaults `retry_on_failure=True`, `max_retries=3` and constructor defaults
`_retry_delay=0.5`, `_max_retry_delay=5`, a pool of size 5, no password,
and `enable_exponential_backoff` switched on, as the backoff claims
assume. -/
def expCallConfig : CallConfig :=
  { retryOnFailure := true, maxRetries := 3, expBackoff := true,
    retryDelay := 1 / 2, maxRetryDelay := 5, hasPassword := false,
    enablePool := true, poolCap := 5 }

/-! ### `RcoderCore.execute` (`core_optimized.py` 423-546)

The command cache `self._command_cache` is an association list from cache
key to stored result and timestamp; assignment shadows older entries, and
lookup returns the newest, matching dict semantics.  Time is explicit: one
`execute` call happens at a single instant `now`.  The model covers the
default `wait_for_restart = False` behavior, in which the restart-wait
branch of lines 450-518 is never taken. -/

/-- The command cache: key, stored result, storing timestamp. -/
abbrev CmdCache := List (String × String × ℚ)

/-- The cache key built at line 439. -/
def execCacheKey (server command : String) : String :=
  "execute:" ++ server ++ ":" ++ command

/-- Dict lookup on the association-list cache. -/
def cacheLookup (cache : CmdCache) (key : String) : Option (String × ℚ) :=
  match cache with
  | [] => none
  | (k, r, ts) :: rest => if k = key then some (r, ts) else cacheLookup rest key

/-- Python `a or b or c` over strings (line 530): the first non-empty
operand, or the last one. -/
def firstNonEmpty (a b c : String) : String :=
  if a ≠ "" then a else if b ≠ "" then b else c

/-- Result of one `execute` call: the returned string or raised exception,
the number of `_call` network invocations performed, and the cache
afterwards. -/
structure ExecOutcome where
  result : Except String String
  networkCalls : Nat
  cacheAfter : CmdCache
deriving Repr

/-- Embedding of `RcoderCore.execute` with `wait_for_restart = False`
(lines 437-443 and 519-546): consult the cache when `use_cache` holds and
return an unexpired entry; otherwise run `_call` - whose exception, if any,
propagates uncaught out of `execute` - and on success either extract
stdout-or-stderr-or-error from the inner document (raising when the inner
parse fails), or fall back to `str(result)` when the response has no result
key; store the returned string in the cache when `use_cache` holds. -/
def executeSim (cfg : CallConfig) (useCache : Bool) (cacheExpiry : ℚ) (now : ℚ)
    (cache : CmdCache) (server command : String) (events : Nat → AttemptEvent) :
    ExecOutcome :=
  let key := execCacheKey server command
  let hit :=
    if useCache then
      match cacheLookup cache key with
      | some (r, ts) => if now - ts < cacheExpiry then some r else none
      | none => none
    else none
  match hit with
  | some r => { result := .ok r, networkCalls := 0, cacheAfter := cache }
  | none =>
    match (callSim cfg events).2 with
    | .error e => { result := .error e, networkCalls := 1, cacheAfter := cache }
    | .ok (.withResult none) =>
        { result := .error jsonDecodeErrorMsg, networkCalls := 1, cacheAfter := cache }
    | .ok (.withResult (some d)) =>
        let out := firstNonEmpty d.stdout d.stderr d.error
        { result := .ok out, networkCalls := 1,
          cacheAfter := if useCache then (key, out, now) :: cache else cache }
    | .ok (.withoutResult s) =>
        { result := .ok s, networkCalls := 1,
          cacheAfter := if useCache then (key, s, now) :: cache else cache }

/-! ### The durable message queue (`async_proxy.py` 14-170)

Queue items are dicts mutated in place; the model carries the fields the
claims touch.  The `processing` id set is a duplicate-free list.  Pickle
persistence is modelled by the queue list itself: `_save_queue` snapshots
the current list, `_load_queue` starts from a persisted snapshot. -/

/-- The `status` field of a queue item. -/
inductive QStatus where
  | pending
  | processing
  | completed
  | failed
deriving DecidableEq, Repr

/-- A feedback document as produced by `_execute_proxy_command`
(`async_proxy.py` lines 243-290): fields id, status, result, timestamp. -/
structure Feedback where
  id : String
  status : String
  result : String
  timestamp : ℚ
deriving DecidableEq, Repr

/-- One queue-item dict with the fields read or written by `MessageQueue`
and the worker: `command` stands for the `proxy_command` payload. -/
structure QueueItem where
  id : String
  command : String
  status : QStatus
  sequence : Nat
  timestamp : ℚ
  processingTime : Option ℚ
  completionTime : Option ℚ
  result : Option Feedback
  error : Option String
deriving DecidableEq, Repr

/-- The in-memory state of a `MessageQueue`: the item list and the
`processing` id set. -/
structure MQState where
  queue : List QueueItem
  processing : List String
deriving DecidableEq, Repr

/-- Embedding of `MessageQueue.enqueue` (`async_proxy.py` lines 38-58): the
item keeps its caller-supplied id, is marked pending, stamped with the
current time, given `len(self.queue)` as its sequence number, and appended
at the tail. -/
def enqueue (st : MQState) (base : QueueItem) (now : ℚ) : String × MQState :=
  let item := { base with status := .pending, timestamp := now,
                          sequence := st.queue.length }
  (item.id, { st with queue := st.queue ++ [item] })

/-- The scan of `MessageQueue.dequeue` (lines 72-78): find the first item in
list order that is pending and whose id is not in the processing set, mark
it processing, stamp its processing time, and return the updated item
together with the updated list. -/
def dequeueList (proc : List String) (now : ℚ) :
    List QueueItem → Option QueueItem × List QueueItem
  | [] => (none, [])
  | it :: rest =>
    if it.status = .pending ∧ it.id ∉ proc then
      let it2 := { it with status := .processing, processingTime := some now }
      (some it2, it2 :: rest)
    else
      let r := dequeueList proc now rest
      (r.1, it :: r.2)

/-- Embedding of `MessageQueue.dequeue` (lines 60-80): scan for the first
eligible pending item; when found, add its id to the processing set. -/
def dequeue (now : ℚ) (st : MQState) : Option QueueItem × MQState :=
  match dequeueList st.processing now st.queue with
  | (some it, q2) => (some it, { queue := q2, processing := st.processing ++ [it.id] })
  | (none, _) => (none, st)

/-- The scan of `MessageQueue.complete` (lines 94-101): update the first
item whose id matches, marking it completed with its result and completion
time; report whether a match was found. -/
def completeList (itemId : String) (fb : Feedback) (now : ℚ) :
    List QueueItem → Bool × List QueueItem
  | [] => (false, [])
  | it :: rest =>
    if it.id = itemId then
      (true, { it with status := .completed, result := some fb,
                       completionTime := some now } :: rest)
    else
      let r := completeList itemId fb now rest
      (r.1, it :: r.2)

/-- Embedding of `MessageQueue.complete` (lines 82-102): on a match, commit
the updated list and discard the id from the processing set (Python
`set.remove`; the worker only completes ids it has dequeued, so the id is
present). -/
def complete (itemId : String) (fb : Feedback) (now : ℚ) (st : MQState) :
    Bool × MQState :=
  let r := completeList itemId fb now st.queue
  if r.1 then
    (true, { queue := r.2, processing := st.processing.filter (fun i => i ≠ itemId) })
  else (false, st)

/-- The scan of `MessageQueue.fail` (lines 116-123), analogous to
`completeList` with status failed and an error string. -/
def failList (itemId : String) (err : String) (now : ℚ) :
    List QueueItem → Bool × List QueueItem
  | [] => (false, [])
  | it :: rest =>
    if it.id = itemId then
      (true, { it with status := .failed, error := some err,
                       completionTime := some now } :: rest)
    else
      let r := failList itemId err now rest
      (r.1, it :: r.2)

/-- Embedding of `MessageQueue.fail` (lines 104-124). -/
def fail (itemId : String) (err : String) (now : ℚ) (st : MQState) :
    Bool × MQState :=
  let r := failList itemId err now st.queue
  if r.1 then
    (true, { queue := r.2, processing := st.processing.filter (fun i => i ≠ itemId) })
  else (false, st)

/-- Embedding of the successful-load path of `MessageQueue._load_queue`
(`async_proxy.py` lines 157-167): install the persisted item list with every
processing item reset to pending, and clear the processing set.  (When
loading raises, the queue starts empty instead; that path drops to the empty
state and is not modelled further.) -/
def load_queue (persisted : List QueueItem) : MQState :=
  { queue := persisted.map (fun it =>
      if it.status = .processing then { it with status := .pending } else it),
    processing := [] }

/-! ### The background worker (`async_proxy.py` 197-290)

The caller-supplied callback of `send_command` is a function that either
returns normally (`Except.ok ()`) or raises with an exception message
(`Except.error msg`); `none` stands for no callback, skipped by the
`if callback:` guards. -/

/-- The guarded invocation `if callback: callback(fb)` used at lines
247-248, 257-258 and 277-278. -/
def invokeCallback (cb : Option (Feedback → Except String Unit)) (fb : Feedback) :
    Except String Unit :=
  match cb with
  | none => .ok ()
  | some f => f fb

/-- The error feedback document built by the inner handler of
`_execute_proxy_command` (lines 253-270) from the caught exception
message. -/
def parseFailFeedback (commandId : String) (excMsg : String) (now : ℚ) : Feedback :=
  { id := commandId, status := "error",
    result := "解析反馈失败: " ++ excMsg, timestamp := now }

/-- The error feedback document built by the outer handler of
`_execute_proxy_command` (lines 273-290) from the caught exception
message. -/
def runFailFeedback (commandId : String) (excMsg : String) (now : ℚ) : Feedback :=
  { id := commandId, status := "error",
    result := "执行代理命令失败: " ++ excMsg, timestamp := now }

/-- Abstract rendering of the exception `json.loads` raises on unparseable
feedback (fed to `str(e)` at line 253). -/
def jsonLoadsExcMsg : String := "Expecting value: line 1 column 1 (char 0)"

/-- The outer `except Exception` block of `_execute_proxy_command` (lines
272-290): build the error feedback, invoke the callback on it, and return
the feedback - unless that callback invocation raises, in which case the
exception escapes `_execute_proxy_command` (line 278 sits inside the
handler, protected by no further `try`). -/
def outerHandler (cb : Option (Feedback → Except String Unit)) (commandId : String)
    (excMsg : String) (now : ℚ) : Except String Feedback :=
  let fb := runFailFeedback commandId excMsg now
  match invokeCallback cb fb with
  | .ok _ => .ok fb
  | .error e3 => .error e3

/-- The inner `except Exception` block of `_execute_proxy_command` (lines
252-270): build the error feedback, invoke the callback on it, and return
the feedback; a callback exception raised here propagates into the outer
`try` and lands in the outer handler. -/
def innerHandler (cb : Option (Feedback → Except String Unit)) (commandId : String)
    (excMsg : String) (now : ℚ) : Except String Feedback :=
  let fb := parseFailFeedback commandId excMsg now
  match invokeCallback cb fb with
  | .ok _ => .ok fb
  | .error e2 => outerHandler cb commandId e2 now

/-- Embedding of `AsyncProxyManager._execute_proxy_command` (lines 226-290):
run the proxy command (`runResult` is the string produced by
`remote.run_async`, or the message of the exception it raised, caught by
the outer handler); on success parse the stripped feedback as JSON
(`parse` stands for `json.loads`, returning `none` when it raises, caught
by the inner handler) and invoke the callback on the parsed feedback - a
callback exception on the success path is caught by the inner handler too.
The result is the returned feedback document, or `Except.error` when a
callback exception escapes every handler. -/
def executeProxyCommand (cb : Option (Feedback → Except String Unit))
    (commandId : String) (now : ℚ) (runResult : Except String String)
    (parse : String → Option Feedback) : Except String Feedback :=
  match runResult with
  | .error e => outerHandler cb commandId e now
  | .ok s =>
    match parse s with
    | some fb =>
      match invokeCallback cb fb with
      | .ok _ => .ok fb
      | .error e1 => innerHandler cb commandId e1 now
    | none => innerHandler cb commandId jsonLoadsExcMsg now

/-- One iteration of the worker loop `AsyncProxyManager._process_queue`
(lines 201-224): dequeue the next pending item; when none is pending, sleep
and leave the state unchanged; otherwise execute the proxy command and mark
the item completed with the returned feedback.  When
`_execute_proxy_command` raises - a callback exception that escaped its
handlers - the loop's own `except` (lines 222-224) logs and sleeps:
`complete` at line 219 never runs and the dequeued item keeps status
processing, its id still in the processing set. -/
def workerStep (runOf : QueueItem → Except String String)
    (parse : String → Option Feedback)
    (cb : Option (Feedback → Except String Unit)) (now : ℚ) (st : MQState) :
    MQState :=
  match dequeue now st with
  | (none, st2) => st2
  | (some it, st2) =>
    match executeProxyCommand cb it.id now (runOf it) parse with
    | .ok fb => (complete it.id fb now st2).2
    | .error _ => st2

/-- A blank queue-item dict, filled in by `enqueue` and `send_command`. -/
def blankItem (itemId command : String) : QueueItem :=
  { id := itemId, command := command, status := .pending, sequence := 0,
    timestamp := 0, processingTime := none, completionTime := none,
    result := none, error := none }

/-! ### Concrete fixtures used by individual claims -/

/-- Equality on `Except` values is decidable componentwise. -/
instance {ε α : Type} [DecidableEq ε] [DecidableEq α] : DecidableEq (Except ε α) :=
  fun a b =>
    match a, b with
    | .error x, .error y =>
      match decEq x y with
      | isTrue h => isTrue (by rw [h])
      | isFalse h => isFalse (by intro hc; cases hc; exact h rfl)
    | .error _, .ok _ => isFalse (by intro hc; cases hc)
    | .ok _, .error _ => isFalse (by intro hc; cases hc)
    | .ok x, .ok y =>
      match decEq x y with
      | isTrue h => isTrue (by rw [h])
      | isFalse h => isFalse (by intro hc; cases hc; exact h rfl)

/-- A queue holding three pending items A, B, C in enqueue order. -/
def fifoDemoQueue : MQState :=
  { queue := [{ blankItem "A" "uptime" with sequence := 0 },
              { blankItem "B" "free -h" with sequence := 1 },
              { blankItem "C" "df -h" with sequence := 2 }],
    processing := [] }

/-- Three worker iterations over the demo queue at times 1, 2, 3, with no
callback and the remote returning unparseable feedback. -/
def fifoDemoRun : MQState :=
  workerStep (fun _ => .ok "x") (fun _ => none) none 3
    (workerStep (fun _ => .ok "x") (fun _ => none) none 2
      (workerStep (fun _ => .ok "x") (fun _ => none) none 1 fifoDemoQueue))

/-- A persisted snapshot with one completed and one in-flight item, as
left by an abrupt restart. -/
def crashSnapshot : List QueueItem :=
  [{ blankItem "done" "uptime" with status := .completed, sequence := 0 },
   { blankItem "inflight" "df -h" with status := .processing, sequence := 1 }]

/-- A single-item queue used to witness the worker-completion claim. -/
def workerDemoQueue : MQState :=
  { queue := [blankItem "A" "uptime"], processing := [] }

/-- The item of `workerDemoQueue` as returned by `dequeue` at time 1. -/
def workerDemoDequeued : QueueItem :=
  { blankItem "A" "uptime" with status := .processing, processingTime := some 1 }

/-- An event script on which every attempt succeeds with stdout out. -/
def cacheDemoEvents : Nat → AttemptEvent :=
  fun _ => .ok (.withResult (some { stdout := "out", stderr := "", error := "" }))

/-! ## Supporting lemmas -/

theorem isPrefixOf_append_left (n : List Char) :
    ∀ p r : List Char, n.isPrefixOf p = true → n.isPrefixOf (p ++ r) = true := by
  induction n with
  | nil => intro p r _; simp
  | cons a as ih =>
    intro p r h
    cases p with
    | nil => simp at h
    | cons b bs =>
      simp only [List.cons_append, List.isPrefixOf_cons₂, Bool.and_eq_true, beq_iff_eq] at h ⊢
      exact ⟨h.1, ih bs r h.2⟩

theorem charsContain_of_isPrefixOf (n hay : List Char) (h : n.isPrefixOf hay = true) :
    charsContain n hay = true := by
  cases hay with
  | nil =>
    simp only [charsContain, List.tails, List.any_cons, List.any_nil, Bool.or_false]
    exact h
  | cons a l =>
    simp only [charsContain, List.tails, List.any_cons, Bool.or_eq_true]
    exact Or.inl h

theorem strContains_authFailMsg (m : String) :
    strContains (authFailMsg m) "认证失败" = true := by
  have hdata : (authFailMsg m).toList =
      "认证失败: ".toList ++ (m ++ ". 请检查用户名和密码是否正确。").toList := by
    simp [authFailMsg, String.toList, ← String.append_assoc]
  unfold strContains
  rw [hdata]
  exact charsContain_of_isPrefixOf _ _
    (isPrefixOf_append_left _ _ _ (by decide))

/-- The boolean encoding of the standard-deviation comparison used by
`detectUnstablePart` agrees with the real square-root comparison it
models. -/
theorem sqrtGTQ_iff (v c : ℚ) : sqrtGTQ v c = true ↔ (c : ℝ) < Real.sqrt (v : ℝ) := by
  by_cases h : c < 0
  · have hval : sqrtGTQ v c = true := by simp [sqrtGTQ, h]
    rw [hval]
    exact iff_of_true rfl
      (lt_of_lt_of_le (by exact_mod_cast h) (Real.sqrt_nonneg _))
  · simp only [sqrtGTQ, if_neg h, decide_eq_true_eq]
    rw [Real.lt_sqrt (by exact_mod_cast not_lt.mp h)]
    exact_mod_cast Iff.rfl

theorem returnConn_shape (cfg : CallConfig) (c : Nat) (st : CallState) :
    ∃ p, returnConn cfg c st = { st with pool := p } := by
  unfold returnConn
  split
  · exact ⟨st.pool ++ [c], rfl⟩
  · exact ⟨st.pool, rfl⟩

theorem acquireConn_shape (cfg : CallConfig) (st : CallState) :
    ∃ p n, (acquireConn cfg st).2 = { st with pool := p, nextConn := n } := by
  unfold acquireConn
  split
  · cases h : st.pool with
    | nil => exact ⟨st.pool, st.nextConn + 1, by simp [h]⟩
    | cons a rest => exact ⟨rest, st.nextConn, by simp [h]⟩
  · exact ⟨st.pool, st.nextConn + 1, rfl⟩

theorem attemptState_shape (cfg : CallConfig) (e : AttemptEvent) (st : CallState) :
    ∃ p n, attemptState cfg e st =
      { st with pool := p, nextConn := n, attempts := st.attempts + 1,
                released := st.released ++ [connObtained e] } := by
  unfold attemptState
  by_cases hc : connObtained e
  · simp only [hc, if_true]
    obtain ⟨p1, n1, h1⟩ := acquireConn_shape cfg st
    obtain ⟨p2, h2⟩ := returnConn_shape cfg (acquireConn cfg st).1 (acquireConn cfg st).2
    rw [h2, h1]
    exact ⟨p2, n1, rfl⟩
  · simp only [hc, if_false]
    exact ⟨st.pool, st.nextConn, rfl⟩

theorem attemptState_retryCount (cfg : CallConfig) (e : AttemptEvent) (st : CallState) :
    (attemptState cfg e st).retryCount = st.retryCount := by
  obtain ⟨p, n, hs⟩ := attemptState_shape cfg e st
  rw [hs]

theorem attemptState_attempts (cfg : CallConfig) (e : AttemptEvent) (st : CallState) :
    (attemptState cfg e st).attempts = st.attempts + 1 := by
  obtain ⟨p, n, hs⟩ := attemptState_shape cfg e st
  rw [hs]

theorem attemptState_delay (cfg : CallConfig) (e : AttemptEvent) (st : CallState) :
    (attemptState cfg e st).delay = st.delay := by
  obtain ⟨p, n, hs⟩ := attemptState_shape cfg e st
  rw [hs]

theorem attemptState_sleeps (cfg : CallConfig) (e : AttemptEvent) (st : CallState) :
    (attemptState cfg e st).sleeps = st.sleeps := by
  obtain ⟨p, n, hs⟩ := attemptState_shape cfg e st
  rw [hs]

theorem attemptState_released (cfg : CallConfig) (e : AttemptEvent) (st : CallState) :
    (attemptState cfg e st).released = st.released ++ [connObtained e] := by
  obtain ⟨p, n, hs⟩ := attemptState_shape cfg e st
  rw [hs]

theorem callLoop_retry_step (cfg : CallConfig) (events : Nat → AttemptEvent) (fuel : Nat)
    (st : CallState) (m : String)
    (hm : classifyEvent cfg.hasPassword (events st.attempts) = .retryable m)
    (hr : cfg.retryOnFailure = true) (hrc : st.retryCount < cfg.maxRetries) :
    callLoop cfg events (fuel + 1) st =
      callLoop cfg events fuel (sleepState cfg (attemptState cfg (events st.attempts) st)) := by
  obtain ⟨p, n, hshape⟩ := attemptState_shape cfg (events st.attempts) st
  simp only [callLoop, hm, hshape]
  rw [if_pos ⟨hr, hrc⟩]

theorem callLoop_exhaust_step (cfg : CallConfig) (events : Nat → AttemptEvent) (fuel : Nat)
    (st : CallState) (m : String)
    (hm : classifyEvent cfg.hasPassword (events st.attempts) = .retryable m)
    (hcond : ¬ (cfg.retryOnFailure = true ∧ st.retryCount < cfg.maxRetries)) :
    callLoop cfg events (fuel + 1) st =
      (attemptState cfg (events st.attempts) st, Except.error m) := by
  obtain ⟨p, n, hshape⟩ := attemptState_shape cfg (events st.attempts) st
  simp only [callLoop, hm, hshape]
  rw [if_neg hcond]

theorem callLoop_raise_step (cfg : CallConfig) (events : Nat → AttemptEvent) (fuel : Nat)
    (st : CallState) (m : String)
    (hm : classifyEvent cfg.hasPassword (events st.attempts) = .raiseNow m) :
    callLoop cfg events (fuel + 1) st =
      (attemptState cfg (events st.attempts) st, Except.error m) := by
  simp only [callLoop, hm]

theorem callLoop_success_step (cfg : CallConfig) (events : Nat → AttemptEvent) (fuel : Nat)
    (st : CallState) (r : ParsedResp)
    (hm : classifyEvent cfg.hasPassword (events st.attempts) = .success r) :
    callLoop cfg events (fuel + 1) st =
      (attemptState cfg (events st.attempts) st, Except.ok r) := by
  simp only [callLoop, hm]

theorem dequeueList_none_iff (proc : List String) (now : ℚ) :
    ∀ q : List QueueItem,
      (∀ it ∈ q, it.status = .pending → it.id ∉ proc) →
      ((dequeueList proc now q).1 = none ↔ ∀ it ∈ q, it.status ≠ .pending) := by
  intro q
  induction q with
  | nil => intro _; simp [dequeueList]
  | cons a rest ih =>
    intro hpf
    by_cases ha : a.status = QStatus.pending
    · have hnp : a.id ∉ proc := hpf a (by simp) ha
      simp [dequeueList, ha, hnp]
    · have hcond : ¬ (a.status = QStatus.pending ∧ a.id ∉ proc) := fun hc => ha hc.1
      simp only [dequeueList, if_neg hcond]
      show (dequeueList proc now rest).1 = none ↔ _
      rw [ih (fun it hit hp => hpf it (List.mem_cons_of_mem a hit) hp)]
      constructor
      · intro h it hit
        rcases List.mem_cons.mp hit with h1 | h1
        · rw [h1]; exact ha
        · exact h it h1
      · intro h it hit
        exact h it (List.mem_cons_of_mem a hit)

theorem dequeueList_some_spec (proc : List String) (now : ℚ) :
    ∀ q : List QueueItem,
      (∀ it ∈ q, it.status = .pending → it.id ∉ proc) →
      List.Pairwise (fun x y => x.sequence < y.sequence) q →
      ∀ it, (dequeueList proc now q).1 = some it →
        ∃ orig ∈ q, orig.status = .pending ∧
          it = { orig with status := .processing, processingTime := some now } ∧
          ∀ other ∈ q, other.status = .pending → it.sequence ≤ other.sequence := by
  intro q
  induction q with
  | nil => intro _ _ it h; simp [dequeueList] at h
  | cons a rest ih =>
    intro hpf hpw it hsome
    by_cases ha : a.status = QStatus.pending
    · have hnp : a.id ∉ proc := hpf a (by simp) ha
      simp only [dequeueList, if_pos (And.intro ha hnp), Option.some.injEq] at hsome
      refine ⟨a, by simp, ha, hsome.symm, ?_⟩
      intro other hother hpother
      rcases List.mem_cons.mp hother with h1 | h1
      · rw [h1, ← hsome]
      · have hlt := (List.pairwise_cons.mp hpw).1 other h1
        rw [← hsome]
        exact le_of_lt hlt
    · have hcond : ¬ (a.status = QStatus.pending ∧ a.id ∉ proc) := fun hc => ha hc.1
      rw [dequeueList, if_neg hcond] at hsome
      obtain ⟨orig, ho, hos, heq, hmin⟩ :=
        ih (fun it2 hit hp => hpf it2 (List.mem_cons_of_mem a hit) hp)
          (List.pairwise_cons.mp hpw).2 it hsome
      refine ⟨orig, List.mem_cons_of_mem a ho, hos, heq, ?_⟩
      intro other hother hpother
      rcases List.mem_cons.mp hother with h1 | h1
      · exact absurd (h1 ▸ hpother) ha
      · exact hmin other h1 hpother

theorem dequeueList_map_id (proc : List String) (now : ℚ) :
    ∀ q : List QueueItem,
      ((dequeueList proc now q).2).map (fun it => it.id) = q.map (fun it => it.id) := by
  intro q
  induction q with
  | nil => simp [dequeueList]
  | cons a rest ih =>
    by_cases hc : a.status = QStatus.pending ∧ a.id ∉ proc
    · simp [dequeueList, if_pos hc]
    · simp only [dequeueList, if_neg hc, List.map_cons]
      rw [ih]

theorem dequeueList_mem_of_some (proc : List String) (now : ℚ) :
    ∀ q : List QueueItem, ∀ it, (dequeueList proc now q).1 = some it →
      it ∈ (dequeueList proc now q).2 := by
  intro q
  induction q with
  | nil => intro it h; simp [dequeueList] at h
  | cons a rest ih =>
    intro it h
    by_cases hc : a.status = QStatus.pending ∧ a.id ∉ proc
    · simp only [dequeueList, if_pos hc, Option.some.injEq] at h ⊢
      rw [← h]
      exact List.mem_cons_self _ _
    · rw [dequeueList, if_neg hc] at h
      simp only [dequeueList, if_neg hc]
      exact List.mem_cons_of_mem a (ih it h)

theorem dequeueList_mem_orig (proc : List String) (now : ℚ) :
    ∀ q : List QueueItem, ∀ it2 ∈ (dequeueList proc now q).2,
      it2 ∈ q ∨ it2.status = QStatus.processing := by
  intro q
  induction q with
  | nil => intro it2 h; simp [dequeueList] at h
  | cons a rest ih =>
    intro it2 h
    by_cases hc : a.status = QStatus.pending ∧ a.id ∉ proc
    · simp only [dequeueList, if_pos hc] at h
      rcases List.mem_cons.mp h with h1 | h1
      · right; rw [h1]
      · exact Or.inl (List.mem_cons_of_mem a h1)
    · rw [dequeueList, if_neg hc] at h
      rcases List.mem_cons.mp h with h1 | h1
      · exact Or.inl (h1 ▸ List.mem_cons_self a rest)
      · rcases ih it2 h1 with h2 | h2
        · exact Or.inl (List.mem_cons_of_mem a h2)
        · exact Or.inr h2

theorem completeList_mem_orig (itemId : String) (fb : Feedback) (now : ℚ) :
    ∀ q : List QueueItem, ∀ it2 ∈ (completeList itemId fb now q).2,
      it2 ∈ q ∨ it2.status = QStatus.completed := by
  intro q
  induction q with
  | nil => intro it2 h; simp [completeList] at h
  | cons a rest ih =>
    intro it2 h
    by_cases hc : a.id = itemId
    · simp only [completeList, if_pos hc] at h
      rcases List.mem_cons.mp h with h1 | h1
      · right; rw [h1]
      · exact Or.inl (List.mem_cons_of_mem a h1)
    · rw [completeList, if_neg hc] at h
      rcases List.mem_cons.mp h with h1 | h1
      · exact Or.inl (h1 ▸ List.mem_cons_self a rest)
      · rcases ih it2 h1 with h2 | h2
        · exact Or.inl (List.mem_cons_of_mem a h2)
        · exact Or.inr h2

theorem completeList_found (itemId : String) (fb : Feedback) (now : ℚ) :
    ∀ q : List QueueItem, itemId ∈ q.map (fun it => it.id) →
      (completeList itemId fb now q).1 = true ∧
      ∃ it2 ∈ (completeList itemId fb now q).2,
        it2.id = itemId ∧ it2.status = QStatus.completed := by
  intro q
  induction q with
  | nil => intro h; simp at h
  | cons a rest ih =>
    intro h
    by_cases hc : a.id = itemId
    · refine ⟨by simp [completeList, if_pos hc], ?_⟩
      rw [completeList, if_pos hc]
      exact ⟨_, List.mem_cons_self _ _, hc, rfl⟩
    · have hmem : itemId ∈ rest.map (fun it => it.id) := by
        rcases List.mem_map.mp h with ⟨x, hx, hid⟩
        rcases List.mem_cons.mp hx with h1 | h1
        · exact absurd (h1 ▸ hid) hc
        · exact List.mem_map.mpr ⟨x, h1, hid⟩
      obtain ⟨hb, it2, hit2, hid2, hst2⟩ := ih hmem
      refine ⟨by simp [completeList, if_neg hc, hb], it2, ?_, hid2, hst2⟩
      rw [completeList, if_neg hc]
      exact List.mem_cons_of_mem a hit2

theorem completeList_all_id_completed (itemId : String) (fb : Feedback) (now : ℚ) :
    ∀ q : List QueueItem, (q.map (fun it => it.id)).Nodup →
      ∀ it2 ∈ (completeList itemId fb now q).2, it2.id = itemId →
        it2.status = QStatus.completed := by
  intro q
  induction q with
  | nil => intro _ it2 h; simp [completeList] at h
  | cons a rest ih =>
    intro hnd it2 h hid
    have hnd2 : a.id ∉ rest.map (fun it => it.id) ∧
        (rest.map (fun it => it.id)).Nodup := by
      rw [List.map_cons, List.nodup_cons] at hnd
      exact hnd
    by_cases hc : a.id = itemId
    · simp only [completeList, if_pos hc] at h
      rcases List.mem_cons.mp h with h1 | h1
      · rw [h1]
      · exact absurd (List.mem_map.mpr ⟨it2, h1, hid.trans hc.symm⟩) hnd2.1
    · rw [completeList, if_neg hc] at h
      rcases List.mem_cons.mp h with h1 | h1
      · exact absurd (h1 ▸ hid) hc
      · exact ih hnd2.2 it2 h1 hid

theorem executeProxyCommand_ok_of_callback_ok
    (cb : Option (Feedback → Except String Unit)) (commandId : String) (now : ℚ)
    (runResult : Except String String) (parse : String → Option Feedback)
    (hcb : ∀ fb, invokeCallback cb fb = Except.ok ()) :
    ∃ fb, executeProxyCommand cb commandId now runResult parse = .ok fb := by
  rcases runResult with e | s
  · refine ⟨runFailFeedback commandId e now, ?_⟩
    simp [executeProxyCommand, outerHandler, hcb]
  · rcases hp : parse s with _ | fb
    · refine ⟨parseFailFeedback commandId jsonLoadsExcMsg now, ?_⟩
      simp [executeProxyCommand, innerHandler, hp, hcb]
    · refine ⟨fb, ?_⟩
      simp [executeProxyCommand, hp, hcb]

/-! ## The claims -/

/-- Claim C1 (code bug).  The claim states that a marked response carrying
the gzip form of a document d is decoded from exactly d.  The marker
`b'COMPRESSED:'` is 11 bytes long, but line 319 strips only
`response_data[10:]`, so the final colon of the marker is left in front of
the gzip bytes; `gzip.decompress` then fails on the colon and
`_decompress_data` returns its input unchanged, so the payload `_call`
goes on to parse is the colon followed by the compressed bytes, never the
document d. -/
theorem compressed_response_strip_offbyone :
    compressedMarker.length = 11 ∧
    processResponseData true (compressedMarker ++ gzipCompress sampleDoc) =
      58 :: gzipCompress sampleDoc ∧
    58 :: gzipCompress sampleDoc ≠ sampleDoc := by decide

/-- Claim C6 (code bug).  The claim states that a coefficient of variation
above 0.5 selects the very-unstable scenario.  The samples 1, 1, 10 (mean
4, population variance 18) have standard deviation above `mean * 0.5`, yet
the classifier tests `std_dev > mean * 0.3` first, so every such trend
selects unstable_network and the `elif` for very_unstable_network is
unreachable for nonnegative means. -/
theorem scenario_cv_above_half_selects_unstable :
    detectUnstablePart "local_network" [none, none, some 1, some 1, some 10] =
      "unstable_network" ∧
    sqrtGTQ 18 (4 * (1 / 2)) = true ∧
    "unstable_network" ≠ "very_unstable_network" := by
  refine ⟨?_, ?_, by decide⟩
  · norm_num [detectUnstablePart, sqrtGTQ, List.filterMap_cons, List.sum_cons,
      List.map_cons, List.sum_nil, List.map_nil]
  · norm_num [sqrtGTQ]

/-- Claim C5, counterexample.  With no retry budget and a single attempt
whose reads all return empty - no response is obtained - `_call` still
runs `_return_connection` in its `finally` block and the connection ends
up back in the pool, contradicting the claim that a connection is pooled
only on attempts that obtained a response. -/
theorem connection_pooled_without_response :
    (callSim { expCallConfig with maxRetries := 0 } (fun _ => .emptyResponse)).1.pool =
      [0] ∧
    (callSim { expCallConfig with maxRetries := 0 }
        (fun _ => .emptyResponse)).1.released = [true] ∧
    (callSim { expCallConfig with maxRetries := 0 } (fun _ => .emptyResponse)).2 =
      Except.error "Empty response from server" := by decide

/-- Claim C4, counterexample.  A server error that persists through the
whole retry budget is re-raised by `_call`, and `execute` has no handler
around its `_call` invocation, so `execute` raises instead of returning a
descriptive failure string; the error is not authentication-flavored. -/
theorem execute_raises_on_persistent_server_error :
    (executeSim expCallConfig true 60 0 [] "local" "uptime"
        (fun _ => .errorResponse "internal failure")).result =
      Except.error "服务器错误: internal failure" ∧
    isAuthErrorMsg "internal failure" = false := by decide

/-- Claim C2.  With `max_retries = 3` and a failure of any retryable class
persisting on every attempt, `_call` enters the loop exactly 4 times before
surfacing the failure, and under exponential backoff the slept delays are
0.5*2 = 1, then min(1*4, 10) = 4, then min(4*8, 10) = 10 - a non-decreasing
sequence. -/
theorem call_retry_bound_exponential (e : AttemptEvent)
    (h : retryableEvent false e = true) :
    (callSim expCallConfig (fun _ => e)).1.attempts = 4 ∧
    (callSim expCallConfig (fun _ => e)).1.sleeps = [1, 4, 10] ∧
    List.Chain' (· ≤ ·) (callSim expCallConfig (fun _ => e)).1.sleeps ∧
    (callSim expCallConfig (fun _ => e)).2.isOk = false := by
  obtain ⟨m, hm⟩ : ∃ m, classifyEvent false e = .retryable m := by
    rcases hc : classifyEvent false e with m | m | r
    · unfold retryableEvent at h; rw [hc] at h; simp at h
    · exact ⟨m, rfl⟩
    · unfold retryableEvent at h; rw [hc] at h; simp at h
  have rc1 : ∀ st : CallState,
      (sleepState expCallConfig (attemptState expCallConfig e st)).retryCount =
        st.retryCount + 1 := by
    intro st
    simp [sleepState, attemptState_retryCount]
  have run : callSim expCallConfig (fun _ => e) =
      (attemptState expCallConfig e
        (sleepState expCallConfig (attemptState expCallConfig e
          (sleepState expCallConfig (attemptState expCallConfig e
            (sleepState expCallConfig (attemptState expCallConfig e
              (initCallState expCallConfig))))))), Except.error m) := by
    unfold callSim
    have e1 := callLoop_retry_step expCallConfig (fun _ => e) 3
      (initCallState expCallConfig) m hm rfl (by decide)
    have e2 := callLoop_retry_step expCallConfig (fun _ => e) 2
      (sleepState expCallConfig (attemptState expCallConfig e
        (initCallState expCallConfig))) m hm rfl
      (by rw [rc1]; simp [initCallState, expCallConfig])
    have e3 := callLoop_retry_step expCallConfig (fun _ => e) 1
      (sleepState expCallConfig (attemptState expCallConfig e
        (sleepState expCallConfig (attemptState expCallConfig e
          (initCallState expCallConfig))))) m hm rfl
      (by rw [rc1, rc1]; simp [initCallState, expCallConfig])
    have e4 := callLoop_exhaust_step expCallConfig (fun _ => e) 0
      (sleepState expCallConfig (attemptState expCallConfig e
        (sleepState expCallConfig (attemptState expCallConfig e
          (sleepState expCallConfig (attemptState expCallConfig e
            (initCallState expCallConfig))))))) m hm
      (by rw [rc1, rc1, rc1]; simp [initCallState, expCallConfig])
    exact e1.trans (e2.trans (e3.trans e4))
  rw [run]
  refine ⟨?_, ?_, ?_, rfl⟩
  · simp [attemptState_attempts, sleepState, initCallState]
  · simp [attemptState_sleeps, attemptState_delay, attemptState_retryCount,
      sleepState, initCallState, nextDelay, expCallConfig]
    norm_num [min_def]
  · have hs : (attemptState expCallConfig e
        (sleepState expCallConfig (attemptState expCallConfig e
          (sleepState expCallConfig (attemptState expCallConfig e
            (sleepState expCallConfig (attemptState expCallConfig e
              (initCallState expCallConfig))))))), (Except.error m :
                Except String ParsedResp)).1.sleeps = [1, 4, 10] := by
      simp [attemptState_sleeps, attemptState_delay, attemptState_retryCount,
        sleepState, initCallState, nextDelay, expCallConfig]
      norm_num [min_def]
    rw [hs]
    norm_num [List.chain'_cons]

/-- Witness for claim C2 at the persistent empty-response failure. -/
theorem call_retry_bound_exponential_witness :
    (callSim expCallConfig (fun _ => AttemptEvent.emptyResponse)).1.attempts = 4 ∧
    (callSim expCallConfig (fun _ => AttemptEvent.emptyResponse)).1.sleeps = [1, 4, 10] ∧
    List.Chain' (· ≤ ·)
      (callSim expCallConfig (fun _ => AttemptEvent.emptyResponse)).1.sleeps ∧
    (callSim expCallConfig (fun _ => AttemptEvent.emptyResponse)).2.isOk = false :=
  call_retry_bound_exponential .emptyResponse (by decide)

/-- Claim C3.  A response whose error message is authentication-flavored
makes `_call` raise after the first attempt, whatever the remaining budget:
the rendered message starts with the 认证失败 prefix, which the generic
handler re-raises instead of retrying. -/
theorem call_auth_error_never_retried (mr : Nat) (msg : String)
    (events : Nat → AttemptEvent)
    (hauth : isAuthErrorMsg msg = true)
    (hev : events 0 = .errorResponse msg) :
    (callSim { expCallConfig with maxRetries := mr } events).1.attempts = 1 ∧
    (callSim { expCallConfig with maxRetries := mr } events).2 =
      Except.error (authFailMsg msg) := by
  have hclass : classifyEvent ({ expCallConfig with maxRetries := mr } :
      CallConfig).hasPassword
      (events (initCallState { expCallConfig with maxRetries := mr }).attempts) =
        .raiseNow (authFailMsg msg) := by
    show classifyEvent false (events 0) = _
    rw [hev]
    simp [classifyEvent, renderErrorMsg, hauth, strContains_authFailMsg]
  have final : callSim { expCallConfig with maxRetries := mr } events =
      (attemptState { expCallConfig with maxRetries := mr } (events 0)
        (initCallState { expCallConfig with maxRetries := mr }),
       Except.error (authFailMsg msg)) := by
    unfold callSim
    exact callLoop_raise_step _ events mr _ _ hclass
  rw [final]
  exact ⟨by simp [attemptState_attempts, initCallState], rfl⟩

/-- Witness for claim C3: an invalid-password error with budget 5 stops
after one attempt. -/
theorem call_auth_error_never_retried_witness :
    (callSim { expCallConfig with maxRetries := 5 }
        (fun _ => AttemptEvent.errorResponse "Invalid password")).1.attempts = 1 ∧
    (callSim { expCallConfig with maxRetries := 5 }
        (fun _ => AttemptEvent.errorResponse "Invalid password")).2 =
      Except.error (authFailMsg "Invalid password") :=
  call_auth_error_never_retried 5 "Invalid password"
    (fun _ => .errorResponse "Invalid password") (by decide) rfl

/-- Claim C4, amended.  `execute` propagates every exception `_call` raises
after the retry budget, authentication-flavored or not; it returns a string
for a failure only in the sense that a response without a result key is
rendered with `str`. -/
theorem execute_propagates_call_errors (cfg : CallConfig) (useCache : Bool)
    (cacheExpiry now : ℚ) (server command : String) (events : Nat → AttemptEvent)
    (msg : String) (h : (callSim cfg events).2 = .error msg) :
    (executeSim cfg useCache cacheExpiry now [] server command events).result =
      .error msg := by
  simp [executeSim, cacheLookup, h]

/-- Witness for the amended claim C4: a persistently undecodable payload
makes `execute` raise the decode error. -/
theorem execute_propagates_call_errors_witness :
    (executeSim expCallConfig true 60 0 [] "web1" "systemctl status nginx"
        (fun _ => AttemptEvent.badJson)).result = .error jsonDecodeErrorMsg :=
  execute_propagates_call_errors expCallConfig true 60 0 "web1"
    "systemctl status nginx" (fun _ => .badJson) jsonDecodeErrorMsg (by decide)

/-- Claim C5, amended.  Whenever a connection was obtained on an attempt,
the `finally` block hands it to `_return_connection`, whether or not a
response was read: the release log marks exactly the attempts whose event
is not a connection-acquisition failure. -/
theorem call_releases_connection_every_attempt (cfg : CallConfig)
    (events : Nat → AttemptEvent) :
    (callSim cfg events).1.released =
      (List.range (callSim cfg events).1.attempts).map
        (fun k => connObtained (events k)) := by
  have main : ∀ fuel st,
      st.released = (List.range st.attempts).map (fun k => connObtained (events k)) →
      (callLoop cfg events fuel st).1.released =
        (List.range (callLoop cfg events fuel st).1.attempts).map
          (fun k => connObtained (events k)) := by
    intro fuel
    induction fuel with
    | zero => intro st hinv; exact hinv
    | succ n ih =>
      intro st hinv
      have hstep : (attemptState cfg (events st.attempts) st).released =
          (List.range (attemptState cfg (events st.attempts) st).attempts).map
            (fun k => connObtained (events k)) := by
        rw [attemptState_released, attemptState_attempts, hinv, List.range_succ,
          List.map_append]
        rfl
      rcases hc : classifyEvent cfg.hasPassword (events st.attempts) with m | m | r
      · rw [callLoop_raise_step cfg events n st m hc]; exact hstep
      · by_cases hb : cfg.retryOnFailure = true ∧ st.retryCount < cfg.maxRetries
        · rw [callLoop_retry_step cfg events n st m hc hb.1 hb.2]
          apply ih
          simpa [sleepState] using hstep
        · rw [callLoop_exhaust_step cfg events n st m hc hb]; exact hstep
      · rw [callLoop_success_step cfg events n st r hc]; exact hstep
  unfold callSim
  exact main _ _ rfl

/-- Claim C9.  When a cached `execute` call stored its result, a second call
for the same (server, command) pair within the cache expiry returns the
identical string and performs no network call. -/
theorem execute_cached_idempotent (cfg : CallConfig) (cacheExpiry now1 now2 : ℚ)
    (cache0 : CmdCache) (server command : String)
    (events events2 : Nat → AttemptEvent) (r : String)
    (h1 : (executeSim cfg true cacheExpiry now1 cache0 server command events).result =
      .ok r)
    (h2 : (executeSim cfg true cacheExpiry now1 cache0 server command events).networkCalls
      = 1)
    (h3 : now2 - now1 < cacheExpiry) :
    (executeSim cfg true cacheExpiry now2
        (executeSim cfg true cacheExpiry now1 cache0 server command events).cacheAfter
        server command events2).result = .ok r ∧
    (executeSim cfg true cacheExpiry now2
        (executeSim cfg true cacheExpiry now1 cache0 server command events).cacheAfter
        server command events2).networkCalls = 0 := by
  have hstore : (executeSim cfg true cacheExpiry now1 cache0 server command events).cacheAfter
      = (execCacheKey server command, r, now1) :: cache0 := by
    rcases hl : cacheLookup cache0 (execCacheKey server command) with _ | ⟨rv, ts⟩
    · rcases hres : (callSim cfg events).2 with msg | resp
      · have heq : executeSim cfg true cacheExpiry now1 cache0 server command events =
            { result := .error msg, networkCalls := 1, cacheAfter := cache0 } := by
          simp [executeSim, hl, hres]
        rw [heq] at h1
        simp at h1
      · rcases resp with inner | s
        · rcases inner with _ | d
          · have heq : executeSim cfg true cacheExpiry now1 cache0 server command events =
                { result := .error jsonDecodeErrorMsg, networkCalls := 1,
                  cacheAfter := cache0 } := by
              simp [executeSim, hl, hres]
            rw [heq] at h1
            simp at h1
          · have heq : executeSim cfg true cacheExpiry now1 cache0 server command events =
                { result := .ok (firstNonEmpty d.stdout d.stderr d.error),
                  networkCalls := 1,
                  cacheAfter := (execCacheKey server command,
                    firstNonEmpty d.stdout d.stderr d.error, now1) :: cache0 } := by
              simp [executeSim, hl, hres]
            rw [heq] at h1 ⊢
            simp at h1 ⊢
            exact h1
        · have heq : executeSim cfg true cacheExpiry now1 cache0 server command events =
              { result := .ok s, networkCalls := 1,
                cacheAfter := (execCacheKey server command, s, now1) :: cache0 } := by
            simp [executeSim, hl, hres]
          rw [heq] at h1 ⊢
          simp at h1 ⊢
          exact h1
    · by_cases hexp : now1 - ts < cacheExpiry
      · have heq : executeSim cfg true cacheExpiry now1 cache0 server command events =
            { result := .ok rv, networkCalls := 0, cacheAfter := cache0 } := by
          simp [executeSim, hl, hexp]
        rw [heq] at h2
        simp at h2
      · rcases hres : (callSim cfg events).2 with msg | resp
        · have heq : executeSim cfg true cacheExpiry now1 cache0 server command events =
              { result := .error msg, networkCalls := 1, cacheAfter := cache0 } := by
            simp [executeSim, hl, hexp, hres]
          rw [heq] at h1
          simp at h1
        · rcases resp with inner | s
          · rcases inner with _ | d
            · have heq : executeSim cfg true cacheExpiry now1 cache0 server command events =
                  { result := .error jsonDecodeErrorMsg, networkCalls := 1,
                    cacheAfter := cache0 } := by
                simp [executeSim, hl, hexp, hres]
              rw [heq] at h1
              simp at h1
            · have heq : executeSim cfg true cacheExpiry now1 cache0 server command events =
                  { result := .ok (firstNonEmpty d.stdout d.stderr d.error),
                    networkCalls := 1,
                    cacheAfter := (execCacheKey server command,
                      firstNonEmpty d.stdout d.stderr d.error, now1) :: cache0 } := by
                simp [executeSim, hl, hexp, hres]
              rw [heq] at h1 ⊢
              simp at h1 ⊢
              exact h1
          · have heq : executeSim cfg true cacheExpiry now1 cache0 server command events =
                { result := .ok s, networkCalls := 1,
                  cacheAfter := (execCacheKey server command, s, now1) :: cache0 } := by
              simp [executeSim, hl, hexp, hres]
            rw [heq] at h1 ⊢
            simp at h1 ⊢
            exact h1
  rw [hstore]
  constructor
  · simp [executeSim, cacheLookup, h3]
  · simp [executeSim, cacheLookup, h3]

/-- Witness for claim C9: a stored uptime result at time 0 is served from
the cache at time 30 without touching the network. -/
theorem execute_cached_idempotent_witness :
    (executeSim expCallConfig true 60 30
        (executeSim expCallConfig true 60 0 [] "local" "uptime"
          cacheDemoEvents).cacheAfter
        "local" "uptime" (fun _ => AttemptEvent.emptyResponse)).result =
      .ok "out" ∧
    (executeSim expCallConfig true 60 30
        (executeSim expCallConfig true 60 0 [] "local" "uptime"
          cacheDemoEvents).cacheAfter
        "local" "uptime" (fun _ => AttemptEvent.emptyResponse)).networkCalls = 0 :=
  execute_cached_idempotent expCallConfig 60 0 30 [] "local" "uptime"
    cacheDemoEvents (fun _ => .emptyResponse) "out" (by decide) (by decide)
    (by norm_num)

/-- Claim C7.  `enqueue` appends at the tail with sequence `len(queue)`;
`dequeue` returns `none` exactly when no item is pending, and otherwise the
pending item of lowest sequence, marked processing; and the single
sequential worker drains items A, B, C to their terminal status in enqueue
order. -/
theorem queue_fifo_dequeue_lowest_sequence (st : MQState) (now : ℚ)
    (hseq : st.queue.map (fun it => it.sequence) = List.range st.queue.length)
    (hpf : ∀ it ∈ st.queue, it.status = .pending → it.id ∉ st.processing) :
    (∀ base now2, (enqueue st base now2).2.queue = st.queue ++ [{ base with status := QStatus.pending, timestamp := now2, sequence := st.queue.length }]) ∧
    ((dequeue now st).1 = none ↔ ∀ it ∈ st.queue, it.status ≠ .pending) ∧
    (∀ it, (dequeue now st).1 = some it →
       ∃ orig ∈ st.queue, orig.status = .pending ∧
         it = { orig with status := .processing, processingTime := some now } ∧
         ∀ other ∈ st.queue, other.status = .pending → it.sequence ≤ other.sequence) ∧
    fifoDemoRun.queue.map (fun it => (it.id, it.status, it.completionTime)) =
      [("A", QStatus.completed, some (1 : ℚ)), ("B", QStatus.completed, some (2 : ℚ)),
       ("C", QStatus.completed, some (3 : ℚ))] := by
  have hpw : List.Pairwise (fun x y => x.sequence < y.sequence) st.queue := by
    have h := List.pairwise_lt_range st.queue.length
    rw [← hseq] at h
    exact List.pairwise_map.mp h
  refine ⟨fun base now2 => rfl, ?_, ?_, by decide⟩
  · rcases hdl : dequeueList st.processing now st.queue with ⟨o, q2⟩
    rcases o with _ | it
    · simp only [dequeue, hdl]
      have hn := dequeueList_none_iff st.processing now st.queue hpf
      rw [hdl] at hn
      simpa using hn
    · simp only [dequeue, hdl]
      obtain ⟨orig, ho, hos, _, _⟩ :=
        dequeueList_some_spec st.processing now st.queue hpf hpw it (by rw [hdl])
      exact ⟨fun hc => by simp at hc, fun hall => (hall orig ho hos).elim⟩
  · intro it hsome
    rcases hdl : dequeueList st.processing now st.queue with ⟨o, q2⟩
    rcases o with _ | it2
    · simp only [dequeue, hdl] at hsome
      simp at hsome
    · simp only [dequeue, hdl, Option.some.injEq] at hsome
      subst hsome
      exact dequeueList_some_spec st.processing now st.queue hpf hpw it2 (by rw [hdl])

/-- Witness for claim C7: the concrete A, B, C queue drains in enqueue
order. -/
theorem queue_fifo_dequeue_lowest_sequence_witness :
    fifoDemoRun.queue.map (fun it => (it.id, it.status, it.completionTime)) =
      [("A", QStatus.completed, some (1 : ℚ)), ("B", QStatus.completed, some (2 : ℚ)),
       ("C", QStatus.completed, some (3 : ℚ))] :=
  (queue_fifo_dequeue_lowest_sequence fifoDemoQueue 1 (by decide) (by decide)).2.2.2

/-- Claim C8.  After `_load_queue` installs a persisted snapshot, the queue
has the same length, the processing set is clear, and every item persisted
as processing is present with status pending, hence eligible for retry. -/
theorem load_queue_restores_processing_as_pending (persisted : List QueueItem) :
    (load_queue persisted).queue.length = persisted.length ∧
    (load_queue persisted).processing = [] ∧
    ∀ it ∈ persisted, it.status = .processing →
      { it with status := QStatus.pending } ∈ (load_queue persisted).queue := by
  refine ⟨by simp [load_queue], rfl, ?_⟩
  intro it hmem hproc
  simp only [load_queue]
  refine List.mem_map.mpr ⟨it, hmem, ?_⟩
  rw [if_pos hproc]

/-- Witness for claim C8: the in-flight item of the crash snapshot reloads
as pending. -/
theorem load_queue_restores_processing_as_pending_witness :
    { blankItem "inflight" "df -h" with status := QStatus.pending, sequence := 1 } ∈ (load_queue crashSnapshot).queue :=
  (load_queue_restores_processing_as_pending crashSnapshot).2.2
    { blankItem "inflight" "df -h" with status := QStatus.processing, sequence := 1 }
    (by decide) rfl

/-- Claim C10, counterexample.  The claim says every dequeued item ends
completed even when executing the proxied command raises.  With a
caller-supplied callback that itself raises, the run-failure path reaches
the outer handler, whose callback invocation at line 278 sits inside the
`except` block: the exception escapes `_execute_proxy_command`, the worker
loop's own handler swallows it before `complete` runs, and the dequeued
item stays processing - on this step and on every later one, since its id
remains in the processing set. -/
theorem worker_callback_exception_leaves_item_processing :
    (dequeue 1 workerDemoQueue).1 = some workerDemoDequeued ∧
    (workerStep (fun _ => Except.error "exec boom") (fun _ => none)
        (some (fun _ => Except.error "callback boom")) 1 workerDemoQueue).queue.map
      (fun it => it.status) = [QStatus.processing] ∧
    (workerStep (fun _ => Except.error "exec boom") (fun _ => none)
        (some (fun _ => Except.error "callback boom")) 1
        workerDemoQueue).processing = ["A"] ∧
    (workerStep (fun _ => Except.error "exec boom") (fun _ => none)
        (some (fun _ => Except.error "callback boom")) 2
      (workerStep (fun _ => Except.error "exec boom") (fun _ => none)
        (some (fun _ => Except.error "callback boom")) 1 workerDemoQueue)).queue.map
      (fun it => it.status) = [QStatus.processing] := by decide

/-- Claim C10, amended.  When every callback invocation returns normally -
in particular when no callback was supplied - `_execute_proxy_command`
totalises every failure (a run that raises, feedback that fails to parse)
into an error feedback document, so every item the worker dequeues is
marked completed; and no worker step introduces a failed status, `fail`
being unreachable from the loop. -/
theorem worker_completes_dequeued_items (runOf : QueueItem → Except String String)
    (parse : String → Option Feedback)
    (cb : Option (Feedback → Except String Unit)) (now : ℚ) (st : MQState)
    (hnd : (st.queue.map (fun it => it.id)).Nodup)
    (hcb : ∀ fb, invokeCallback cb fb = Except.ok ()) :
    (∀ it, (dequeue now st).1 = some it →
       (∃ it2 ∈ (workerStep runOf parse cb now st).queue,
          it2.id = it.id ∧ it2.status = QStatus.completed) ∧
       ∀ it2 ∈ (workerStep runOf parse cb now st).queue,
         it2.id = it.id → it2.status = QStatus.completed) ∧
    ((∀ it ∈ st.queue, it.status ≠ QStatus.failed) →
       ∀ it2 ∈ (workerStep runOf parse cb now st).queue,
         it2.status ≠ QStatus.failed) := by
  rcases hdl : dequeueList st.processing now st.queue with ⟨o, q2⟩
  rcases o with _ | itd
  · have hws : workerStep runOf parse cb now st = st := by
      simp [workerStep, dequeue, hdl]
    rw [hws]
    constructor
    · intro it hsome
      simp [dequeue, hdl] at hsome
    · intro hfail it2 h2
      exact hfail it2 h2
  · have hdq : dequeue now st = (some itd,
        { queue := q2, processing := st.processing ++ [itd.id] }) := by
      simp [dequeue, hdl]
    have hidsq2 : q2.map (fun it => it.id) = st.queue.map (fun it => it.id) := by
      have hm := dequeueList_map_id st.processing now st.queue
      rw [hdl] at hm
      exact hm
    have hmemq2 : itd ∈ q2 := by
      have hm := dequeueList_mem_of_some st.processing now st.queue itd (by rw [hdl])
      rw [hdl] at hm
      exact hm
    have hidmem : itd.id ∈ q2.map (fun it => it.id) :=
      List.mem_map.mpr ⟨itd, hmemq2, rfl⟩
    obtain ⟨fb, hfb⟩ :=
      executeProxyCommand_ok_of_callback_ok cb itd.id now (runOf itd) parse hcb
    obtain ⟨hfound, hexq⟩ := completeList_found itd.id fb now q2 hidmem
    have hws : (workerStep runOf parse cb now st).queue =
        (completeList itd.id fb now q2).2 := by
      rw [workerStep, hdq]
      simp [hfb, complete, hfound]
    constructor
    · intro it hsome
      rw [hdq] at hsome
      simp only [Option.some.injEq] at hsome
      subst hsome
      rw [hws]
      refine ⟨hexq, ?_⟩
      intro it2 h2 hid
      refine completeList_all_id_completed itd.id _ now q2 ?_ it2 h2 hid
      rw [hidsq2]
      exact hnd
    · intro hfail it2 h2
      rw [hws] at h2
      rcases completeList_mem_orig itd.id fb now q2 it2 h2 with hin | hcomp
      · rcases dequeueList_mem_orig st.processing now st.queue it2
            (by rw [hdl]; exact hin) with hin2 | hproc
        · exact hfail it2 hin2
        · rw [hproc]
          simp
      · rw [hcomp]
        simp

/-- Witness for the amended claim C10: the single demo item, dequeued at
time 1 with no callback while its run output fails to parse, still ends
completed. -/
theorem worker_completes_dequeued_items_witness :
    ∃ it2 ∈ (workerStep (fun _ => Except.ok "x") (fun _ => none) none 1
        workerDemoQueue).queue,
      it2.id = "A" ∧ it2.status = QStatus.completed :=
  ((worker_completes_dequeued_items (fun _ => Except.ok "x") (fun _ => none) none 1
      workerDemoQueue (by decide) (fun _ => rfl)).1 workerDemoDequeued (by decide)).1

end Rcoder
